import Mathlib

/-!
Shallow embedding of `src/calendar_worklog.py` (gcal-monthly-worklog).

The embedded core covers: month-window construction (`parse_month_window`),
window resolution (`resolve_aggregation_window`), event classification and
overlap (`is_all_day_event`, `parse_event_datetime`, `overlap_seconds`),
aggregation (`aggregate_event_seconds`), and detail-line formatting
(`format_event_detail_line`).

Modelling conventions:
- Python `datetime` objects are modelled by `DateTime`: validated civil
  fields plus an optional timezone (`none` = naive).  Python raises
  `TypeError` when ordering/subtracting a naive and an aware datetime;
  datetime-valued operations that can raise are `Except PyErr`-valued.
- Timezones (`zoneinfo.ZoneInfo` and `datetime.timezone` fixed offsets)
  are modelled as a pair of offset functions (wall-clock -> UTC offset,
  instant -> UTC offset), in microseconds.  The IANA database lookup
  performed by the `ZoneInfo` constructor is an explicit parameter
  `db : String -> Option Timezone` of `parse_month_window`.
- Durations (`timedelta.total_seconds()`, accumulated as Python floats)
  are modelled as exact rationals `Rat`.
- Operations whose behaviour depends on the host environment (converting
  with a `None` target timezone, which CPython resolves against the system
  local zone) are mapped to the error marker `PyErr.envError`; in
  `DateTime.astimezone` a naive source datetime is treated as UTC.  No
  claim exercises those inputs.
-/

/-- Errors the embedded Python code can raise.  `WorklogError(msg)` is the
repository's user-facing error class; `valueError` and `typeError` model the
built-in exceptions; `envError` marks host-environment-dependent paths that
the embedding does not model. -/
inductive PyErr where
  | worklog (msg : String)
  | valueError
  | typeError
  | envError
  deriving DecidableEq, Repr

/-- A timezone object (`zoneinfo.ZoneInfo` or a fixed-offset
`datetime.timezone`): `offsetAtLocal` gives the UTC offset (microseconds
east) for a wall-clock time expressed as microseconds since the civil epoch
(`tzinfo.utcoffset(dt)` for a datetime carrying this tzinfo);
`offsetAtInstant` gives the UTC offset at a UTC instant (used when
converting into this zone with `astimezone`). -/
structure Timezone where
  offsetAtLocal : Int → Int
  offsetAtInstant : Int → Int

/-- A fixed-offset zone, `datetime.timezone(timedelta(microseconds = off))`. -/
def fixedZone (offMicros : Int) : Timezone :=
  { offsetAtLocal := fun _ => offMicros, offsetAtInstant := fun _ => offMicros }

/-- A Python `datetime.datetime`: civil fields plus optional tzinfo
(`tz = none` models a naive datetime). -/
structure DateTime where
  year : Int
  month : Int
  day : Int
  hour : Int
  minute : Int
  second : Int
  microsecond : Int
  tz : Option Timezone

/-- Gregorian leap-year test. -/
def isLeapYear (y : Int) : Bool :=
  (y % 4 = 0 && y % 100 ≠ 0) || y % 400 = 0

/-- Number of days in a month (Gregorian). -/
def daysInMonth (y m : Int) : Int :=
  if m = 2 then (if isLeapYear y then 29 else 28)
  else if m = 4 ∨ m = 6 ∨ m = 9 ∨ m = 11 then 30
  else 31

/-- Days from 1970-01-01 to the given civil date (Gregorian, proleptic). -/
def daysFromCivil (y m d : Int) : Int :=
  let y' := if m ≤ 2 then y - 1 else y
  let era := y' / 400
  let yoe := y' - era * 400
  let mp := if m > 2 then m - 3 else m + 9
  let doy := (153 * mp + 2) / 5 + d - 1
  let doe := yoe * 365 + yoe / 4 - yoe / 100 + doy
  era * 146097 + doe - 719468

/-- Civil date (year, month, day) of a day count since 1970-01-01. -/
def civilFromDays (z : Int) : Int × Int × Int :=
  let z' := z + 719468
  let era := z' / 146097
  let doe := z' - era * 146097
  let yoe := (doe - doe / 1460 + doe / 36524 - doe / 146096) / 365
  let y := yoe + era * 400
  let doy := doe - (365 * yoe + yoe / 4 - yoe / 100)
  let mp := (5 * doy + 2) / 153
  let d := doy - (153 * mp + 2) / 5 + 1
  let m := if mp < 10 then mp + 3 else mp - 9
  (if m ≤ 2 then y + 1 else y, m, d)

/-- Microseconds from the civil epoch 1970-01-01T00:00:00 to the wall-clock
fields of a datetime (ignores the tzinfo). -/
def civilMicros (d : DateTime) : Int :=
  daysFromCivil d.year d.month d.day * 86400000000
    + ((d.hour * 60 + d.minute) * 60 + d.second) * 1000000
    + d.microsecond

/-- Python `dt.utcoffset()` in microseconds: `0` for a naive datetime (only used
where Python would not consult the offset at all). -/
def utcoffsetMicros (d : DateTime) : Int :=
  match d.tz with
  | none => 0
  | some z => z.offsetAtLocal (civilMicros d)

/-- The UTC instant of a datetime, in microseconds since the epoch
(wall-clock micros minus the UTC offset); for a naive datetime this is just
the civil value. -/
def instantMicros (d : DateTime) : Int :=
  civilMicros d - utcoffsetMicros d

/-- Whether a datetime is timezone-aware. -/
def DateTime.isAware (d : DateTime) : Bool :=
  d.tz.isSome

/-- Python comparison of two datetimes: aware datetimes compare as UTC
instants, naive ones by their civil fields, and comparing a naive with an
aware datetime raises `TypeError`. -/
def pyCompareDT (a b : DateTime) : Except PyErr Ordering :=
  match a.tz, b.tz with
  | some _, some _ =>
    .ok (if instantMicros a < instantMicros b then .lt
         else if instantMicros a = instantMicros b then .eq else .gt)
  | none, none =>
    .ok (if civilMicros a < civilMicros b then .lt
         else if civilMicros a = civilMicros b then .eq else .gt)
  | _, _ => .error .typeError

/-- Python `max(a, b)`: returns `b` exactly when `b > a` (so `a` on ties). -/
def pyMaxDT (a b : DateTime) : Except PyErr DateTime := do
  match ← pyCompareDT b a with
  | .gt => return b
  | _ => return a

/-- Python `min(a, b)`: returns `b` exactly when `b < a` (so `a` on ties). -/
def pyMinDT (a b : DateTime) : Except PyErr DateTime := do
  match ← pyCompareDT b a with
  | .lt => return b
  | _ => return a

/-- Python datetime subtraction `a - b`, as microseconds: instant
difference for two aware datetimes, civil difference for two naive ones,
`TypeError` when mixed. -/
def dtSubMicros (a b : DateTime) : Except PyErr Int :=
  match a.tz, b.tz with
  | some _, some _ => .ok (instantMicros a - instantMicros b)
  | none, none => .ok (civilMicros a - civilMicros b)
  | _, _ => .error .typeError

/-- Python `d.astimezone(z)`: convert to zone `z`, preserving the UTC instant.  A
naive `d` (which CPython would interpret in the system local zone) is
treated as UTC here; no claim exercises that input. -/
def DateTime.astimezone (d : DateTime) (z : Timezone) : DateTime :=
  let inst := instantMicros d
  let wall := inst + z.offsetAtInstant inst
  let days := wall / 86400000000
  let rem := wall % 86400000000
  let c := civilFromDays days
  { year := c.1, month := c.2.1, day := c.2.2,
    hour := rem / 3600000000,
    minute := rem % 3600000000 / 60000000,
    second := rem % 60000000 / 1000000,
    microsecond := rem % 1000000,
    tz := some z }

/-- The `datetime.datetime` constructor: validates field ranges
(`MINYEAR = 1`, `MAXYEAR = 9999`, etc.) and raises `ValueError` otherwise. -/
def datetimeNew (year month day hour minute second microsecond : Int)
    (tz : Option Timezone) : Except PyErr DateTime :=
  if 1 ≤ year ∧ year ≤ 9999 ∧ 1 ≤ month ∧ month ≤ 12 ∧
      1 ≤ day ∧ day ≤ daysInMonth year month ∧
      0 ≤ hour ∧ hour ≤ 23 ∧ 0 ≤ minute ∧ minute ≤ 59 ∧
      0 ≤ second ∧ second ≤ 59 ∧
      0 ≤ microsecond ∧ microsecond ≤ 999999 then
    .ok { year := year, month := month, day := day, hour := hour,
          minute := minute, second := second, microsecond := microsecond,
          tz := tz }
  else
    .error .valueError

/-- ASCII decimal digit test. -/
def isDig (c : Char) : Bool :=
  '0' ≤ c ∧ c ≤ '9'

/-- Numeric value of an ASCII digit. -/
def digVal (c : Char) : Nat :=
  c.toNat - '0'.toNat

/-- Digit run with single underscores allowed between digits, continuing an
accumulator: the tail of Python `int()`'s digit grammar. -/
def pyDigitsGo : List Char → Nat → Option Nat
  | [], acc => some acc
  | '_' :: c :: rest, acc =>
      if isDig c then pyDigitsGo rest (acc * 10 + digVal c) else none
  | ['_'], _ => none
  | c :: rest, acc =>
      if isDig c then pyDigitsGo rest (acc * 10 + digVal c) else none

/-- Nonempty digit run (underscores between digits allowed, none leading). -/
def pyDigits : List Char → Option Nat
  | [] => none
  | c :: rest => if isDig c then pyDigitsGo rest (digVal c) else none

/-- Characters `str.strip()` removes (ASCII whitespace). -/
def isPyWs (c : Char) : Bool :=
  c = ' ' ∨ c = '\t' ∨ c = '\n' ∨ c = '\r' ∨ c = '\x0b' ∨ c = '\x0c'

/-- Python `int(s)` for a string: optional surrounding whitespace, optional
sign, then a digit run with single underscores between digits; `none` models
`ValueError`. -/
def pyInt (s : String) : Option Int :=
  let l := ((s.toList.dropWhile isPyWs).reverse.dropWhile isPyWs).reverse
  match l with
  | '+' :: rest => (pyDigits rest).map Int.ofNat
  | '-' :: rest => (pyDigits rest).map (fun n => -(Int.ofNat n))
  | rest => (pyDigits rest).map Int.ofNat

/-- Two ASCII digits as a number. -/
def twoDig (a b : Char) : Option Nat :=
  if isDig a ∧ isDig b then some (digVal a * 10 + digVal b) else none

/-- CPython `_parse_hh_mm_ss_ff`: `HH[:MM[:SS[.fff | .ffffff]]]`, consuming the whole
string; returns (hour, minute, second, microsecond). -/
def parseHMSF (l : List Char) : Option (Nat × Nat × Nat × Nat) :=
  match l with
  | a :: b :: rest => do
    let h ← twoDig a b
    match rest with
    | [] => some (h, 0, 0, 0)
    | ':' :: c :: d :: rest2 => do
      let m ← twoDig c d
      match rest2 with
      | [] => some (h, m, 0, 0)
      | ':' :: e :: f :: rest3 => do
        let s ← twoDig e f
        match rest3 with
        | [] => some (h, m, s, 0)
        | '.' :: fs =>
          if fs.all isDig then
            let v := fs.foldl (fun acc c => acc * 10 + digVal c) 0
            if fs.length = 3 then some (h, m, s, v * 1000)
            else if fs.length = 6 then some (h, m, s, v)
            else none
          else none
        | _ => none
      | _ => none
    | _ => none
  | _ => none

/-- The time-of-day part of `datetime.fromisoformat` (CPython): everything
before the first `+`/`-` is the time, the rest a UTC offset `HH:MM[:SS[.ffffff]]`
whose string length must be 5, 8 or 15 and whose magnitude must be below 24
hours; returns the time fields and the offset in microseconds. -/
def parseIsoTime (tstr : List Char) :
    Option ((Nat × Nat × Nat × Nat) × Option Int) :=
  if tstr.length < 2 then none else
  match tstr.findIdx? (fun c => c = '+' ∨ c = '-') with
  | none => (parseHMSF tstr).map (fun tc => (tc, none))
  | some i => do
    let timestr := tstr.take i
    let tzstr := tstr.drop (i + 1)
    let tc ← parseHMSF timestr
    if tzstr.length = 5 ∨ tzstr.length = 8 ∨ tzstr.length = 15 then do
      let (th, tm, ts, tus) ← parseHMSF tzstr
      let sign : Int := if tstr.getD i ' ' = '-' then -1 else 1
      let offMicros : Int :=
        sign * (((th * 3600 + tm * 60 + ts : Nat) : Int) * 1000000 + (tus : Int))
      if -86400000000 < offMicros ∧ offMicros < 86400000000 then
        some (tc, some offMicros)
      else none
    else none

/-- Python `datetime.fromisoformat` (CPython 3.10): `YYYY-MM-DD`, then optionally
any single separator character and a time with optional UTC offset; all
fields validated by the `datetime` constructor; `none` models `ValueError`. -/
def fromisoformat (s : String) : Option DateTime :=
  match s.toList with
  | y1 :: y2 :: y3 :: y4 :: '-' :: m1 :: m2 :: '-' :: d1 :: d2 :: rest =>
    if isDig y1 ∧ isDig y2 ∧ isDig y3 ∧ isDig y4 then do
      let yr : Nat := ((digVal y1 * 10 + digVal y2) * 10 + digVal y3) * 10 + digVal y4
      let mo ← twoDig m1 m2
      let dy ← twoDig d1 d2
      let mk := fun (h mi se us : Nat) (tz : Option Timezone) =>
        (datetimeNew yr mo dy h mi se us tz).toOption
      match rest with
      | [] => mk 0 0 0 0 none
      | _ :: tstr => do
        let ((h, mi, se, us), off) ← parseIsoTime tstr
        mk h mi se us (off.map fixedZone)
    else none
  | _ => none

/-- Python `str.replace` for a one-character pattern (the only use in the
repository is `value.replace("Z", "+00:00")`): replace every occurrence of
the character by the replacement string. -/
def pyReplaceOne (pat : Char) (repl : List Char) : List Char → List Char
  | [] => []
  | c :: rest =>
    if c = pat then repl ++ pyReplaceOne pat repl rest
    else c :: pyReplaceOne pat repl rest

/-- Python `str.split` for a one-character separator (the only use in the
repository is `month.split("-")`): split at every occurrence of the
separator; `"".split(sep)` is `[""]`. -/
def pySplitChar (sep : Char) : List Char → List (List Char)
  | [] => [[]]
  | c :: rest =>
    let r := pySplitChar sep rest
    if c = sep then [] :: r
    else
      match r with
      | [] => [[c]]
      | h :: t => (c :: h) :: t

/-- Model of `parse_event_datetime` (src/calendar_worklog.py:65-68): replace every
`"Z"` with `"+00:00"`, then `datetime.fromisoformat`; `none` models the
`ValueError` the caller catches. -/
def parse_event_datetime (value : String) : Option DateTime :=
  fromisoformat (String.mk (pyReplaceOne 'Z' "+00:00".toList value.toList))

/-- Model of `MonthWindow` (src/calendar_worklog.py:22-25). -/
structure MonthWindow where
  start : DateTime
  «end» : DateTime

/-- Model of `MatchedEventDetail` (src/calendar_worklog.py:28-33).  The Python field
`counted_seconds` is a float of seconds; the embedding stores the exact same
quantity in integer microseconds (the float value is this divided by 10^6 —
an exact, order- and sum-preserving rescaling). -/
structure MatchedEventDetail where
  title : String
  start : DateTime
  «end» : DateTime
  counted_seconds : Int

/-- The `start`/`end` sub-record of a raw Google Calendar event: a dict that
may carry a `"date"` key (all-day marker) and/or a `"dateTime"` key. -/
structure EventTime where
  date : Option String
  dateTime : Option String

/-- A raw event record from the provider: a dict whose relevant keys
(`summary`, `status`, `start`, `end`) may each be absent. -/
structure RawEvent where
  summary : Option String
  status : Option String
  start : Option EventTime
  «end» : Option EventTime

/-- Python `event.get("start", dict())`: an absent `start` reads as an empty dict. -/
def RawEvent.startRec (e : RawEvent) : EventTime :=
  e.start.getD { date := none, dateTime := none }

/-- Python `event.get("end", dict())`: an absent `end` reads as an empty dict. -/
def RawEvent.endRec (e : RawEvent) : EventTime :=
  e.«end».getD { date := none, dateTime := none }

/-- Model of `parse_month_window` (src/calendar_worklog.py:36-58).  `db` models the
IANA lookup done by the `ZoneInfo` constructor (`none` = unresolvable name).
Raises `WorklogError` for a malformed month string or unresolvable zone; a
year outside `datetime`'s supported range surfaces as an uncaught
`ValueError` from the `datetime` constructor. -/
def parse_month_window (db : String → Option Timezone)
    (month : String) (timezone_name : String) : Except PyErr MonthWindow :=
  match (pySplitChar '-' month.toList).map String.mk with
  | [p0, p1] =>
    match pyInt p0, pyInt p1 with
    | some year, some month_value =>
      if month_value < 1 ∨ month_value > 12 then
        .error (.worklog "--month must be in YYYY-MM format.")
      else
        match db timezone_name with
        | none => .error (.worklog ("Invalid timezone: " ++ timezone_name))
        | some tz => do
          let start ← datetimeNew year month_value 1 0 0 0 0 (some tz)
          let e ←
            if month_value = 12 then
              datetimeNew (year + 1) 1 1 0 0 0 0 (some tz)
            else
              datetimeNew year (month_value + 1) 1 0 0 0 0 (some tz)
          return { start := start, «end» := e }
    | _, _ => .error (.worklog "--month must be in YYYY-MM format.")
  | _ => .error (.worklog "--month must be in YYYY-MM format.")

/-- Model of `is_all_day_event` (src/calendar_worklog.py:61-62): a `"date"` key on
either the start or the end record. -/
def is_all_day_event (event : RawEvent) : Bool :=
  event.startRec.date.isSome || event.endRec.date.isSome

/-- Python `a <= b` on datetimes (raises `TypeError` when mixed). -/
def pyLeDT (a b : DateTime) : Except PyErr Bool := do
  match ← pyCompareDT a b with
  | .gt => return false
  | _ => return true

/-- Model of `overlap_seconds` (src/calendar_worklog.py:71-76): clip the event
interval to the window; `0.0` when the clipped interval is empty, otherwise
`(effective_end - effective_start).total_seconds()`.  The Python float of
seconds is returned here exactly, in integer microseconds (a `timedelta`'s
resolution): the float value is the result divided by 10^6, so zeroness,
order and sums transfer exactly. -/
def overlap_seconds (event_start event_end : DateTime) (window : MonthWindow) :
    Except PyErr Int := do
  let effective_start ← pyMaxDT event_start window.start
  let effective_end ← pyMinDT event_end window.end
  if ← pyLeDT effective_end effective_start then
    return 0
  else
    let diff ← dtSubMicros effective_end effective_start
    return diff

/-- One iteration of the loop in `aggregate_event_seconds`
(src/calendar_worklog.py:86-116): `ok none` models `continue` (the event is
skipped), `ok (some d)` a positive-overlap contribution. -/
def stepEvent (target_title : String) (window : MonthWindow)
    (event : RawEvent) : Except PyErr (Option MatchedEventDetail) :=
  if event.status = some "cancelled" then .ok none
  else if event.summary ≠ some target_title then .ok none
  else if is_all_day_event event then .ok none
  else
    match event.startRec.dateTime, event.endRec.dateTime with
    | some start_raw, some end_raw =>
      if start_raw = "" ∨ end_raw = "" then .ok none
      else
        match parse_event_datetime start_raw with
        | none => .ok none
        | some event_start =>
          match parse_event_datetime end_raw with
          | none => .ok none
          | some event_end => do
            let seconds ← overlap_seconds event_start event_end window
            if seconds > 0 then
              return some { title := target_title, start := event_start,
                            «end» := event_end, counted_seconds := seconds }
            else
              return none
    | _, _ => .ok none

/-- The accumulation loop of `aggregate_event_seconds`: running total,
count, and detail list (appended in input order). -/
def aggLoop (target_title : String) (window : MonthWindow) :
    List RawEvent → Int → Nat → List MatchedEventDetail →
    Except PyErr (Int × Nat × List MatchedEventDetail)
  | [], total_seconds, matched_count, details =>
    .ok (total_seconds, matched_count, details)
  | event :: rest, total_seconds, matched_count, details => do
    match ← stepEvent target_title window event with
    | none => aggLoop target_title window rest total_seconds matched_count details
    | some d =>
      aggLoop target_title window rest (total_seconds + d.counted_seconds)
        (matched_count + 1) (details ++ [d])

/-- The comparator `list.sort(key=lambda d: (d.start, d.end))` actually
invokes: Python tuple `<`, i.e. strict lexicographic order on the
`(start, end)` pair.  Datetimes are compared by `instantMicros`, which
matches Python's comparison for two aware or two naive datetimes; a mixed
pair would raise in Python, but every detail of one aggregation run passed
`overlap_seconds` against the same window, so all details share the
window's awareness and no mixed pair is ever compared. -/
def detailLt (a b : MatchedEventDetail) : Bool :=
  decide (instantMicros a.start < instantMicros b.start ∨
    (instantMicros a.start = instantMicros b.start ∧
      instantMicros a.«end» < instantMicros b.«end»))

/-- Detail `a` may stay before `b` in the sorted detail list: not `b < a` in the
key order — the non-strict lexicographic order on the `(start, end)` key. -/
def pyKeyLe (a b : MatchedEventDetail) : Prop :=
  detailLt b a = false

instance : DecidableRel pyKeyLe :=
  fun a b => inferInstanceAs (Decidable (detailLt b a = false))

instance : IsTotal MatchedEventDetail pyKeyLe :=
  ⟨by
    intro a b
    rw [pyKeyLe, pyKeyLe, detailLt, detailLt, decide_eq_false_iff_not,
      decide_eq_false_iff_not]
    omega⟩

instance : IsTrans MatchedEventDetail pyKeyLe :=
  ⟨by
    intro a b c hab hbc
    rw [pyKeyLe, detailLt, decide_eq_false_iff_not] at *
    omega⟩

/-- Model of `aggregate_event_seconds` (src/calendar_worklog.py:79-119): fold the
loop over the events, then sort the details by the `(start, end)` key.
CPython's `list.sort` is a stable sort driven by the comparator `detailLt`;
a stable sort's output is uniquely determined by the comparator and the
input order, so the structurally recursive stable `List.insertionSort`
used here produces exactly the same list. -/
def aggregate_event_seconds (events : List RawEvent) (target_title : String)
    (window : MonthWindow) :
    Except PyErr (Int × Nat × List MatchedEventDetail) := do
  let (total_seconds, matched_count, details) ←
    aggLoop target_title window events 0 0 []
  return (total_seconds, matched_count, details.insertionSort pyKeyLe)

/-- Model of `resolve_aggregation_window` (src/calendar_worklog.py:135-146).
`clockNow` is an oracle for the value `datetime.now(...)` would return when
no `now` override is supplied (datetimes are always truthy, so `now or ...`
reads the override exactly when it is not `None`).  A window whose start is
naive would make CPython consult the system local zone (`astimezone(None)`),
which the embedding marks as `envError`. -/
def resolve_aggregation_window (clockNow : DateTime)
    (month_window : MonthWindow) (include_through_month_end : Bool)
    (now : Option DateTime) : Except PyErr MonthWindow :=
  if include_through_month_end then .ok month_window
  else
    let current := now.getD clockNow
    match month_window.start.tz with
    | none => .error .envError
    | some tz => do
      let current_in_tz := current.astimezone tz
      let capped_end ← pyMinDT month_window.end current_in_tz
      return { start := month_window.start, «end» := capped_end }

/-- Zero-pad a (nonnegative) integer to two digits, as `strftime` does for
`%m`, `%d`, `%H`, `%M`. -/
def pad2 (n : Int) : String :=
  if n < 10 then "0" ++ toString n else toString n

/-- Zero-pad a year to four digits (`strftime` `%Y`). -/
def pad4 (n : Int) : String :=
  if n < 10 then "000" ++ toString n
  else if n < 100 then "00" ++ toString n
  else if n < 1000 then "0" ++ toString n
  else toString n

/-- Python `strftime` directive for `%a` in the C locale: abbreviated weekday name of a day
count since the epoch (1970-01-01 was a Thursday). -/
def weekdayAbbrev (days : Int) : String :=
  match ((days + 4) % 7).toNat with
  | 0 => "Sun"
  | 1 => "Mon"
  | 2 => "Tue"
  | 3 => "Wed"
  | 4 => "Thu"
  | 5 => "Fri"
  | _ => "Sat"

/-- Python `d.strftime(date_format)` for the two formats the repository uses:
`"%Y-%m-%d (%a) %H:%M"` when `show_weekday` else `"%Y-%m-%d %H:%M"`. -/
def strftimeLine (show_weekday : Bool) (d : DateTime) : String :=
  let date := pad4 d.year ++ "-" ++ pad2 d.month ++ "-" ++ pad2 d.day
  let time := pad2 d.hour ++ ":" ++ pad2 d.minute
  if show_weekday then
    date ++ " (" ++ weekdayAbbrev (daysFromCivil d.year d.month d.day) ++ ") " ++ time
  else
    date ++ " " ++ time

/-- Round the exact ratio `p / q` (with `q > 0`) to the nearest integer,
ties to even — the rounding of Python's `format(x, '.2f')` on the ideal
real value. -/
def divRoundHalfEven (p q : Int) : Int :=
  let d := p / q
  let r := p % q
  if 2 * r < q then d
  else if 2 * r > q then d + 1
  else if d % 2 = 0 then d else d + 1

/-- Python `f"{x:.2f}"` for the exact ratio `p / q` (`q > 0`): fixed-point
with exactly two decimals. -/
def formatFixed2 (p q : Int) : String :=
  let n := divRoundHalfEven (p * 100) q
  let sign := if n < 0 then "-" else ""
  let a := n.natAbs
  sign ++ toString (a / 100) ++ "." ++ pad2 ((a % 100 : Nat) : Int)

/-- Model of `format_event_detail_line` (src/calendar_worklog.py:122-132): render
start and end in the display timezone, hours to two decimals, as
`"{index}. {start} -> {end} ({hours}h)"`. -/
def format_event_detail_line (index : Nat) (detail : MatchedEventDetail)
    (tzinfo : Timezone) (show_weekday : Bool) : String :=
  let start_text := strftimeLine show_weekday (detail.start.astimezone tzinfo)
  let end_text := strftimeLine show_weekday (detail.«end».astimezone tzinfo)
  toString index ++ ". " ++ start_text ++ " -> " ++ end_text ++
    " (" ++ formatFixed2 detail.counted_seconds 3600000000 ++ "h)"

/-- Fixed-offset model of `ZoneInfo("Asia/Tokyo")` (UTC+9, no transitions
in the modern era). -/
def tokyoZone : Timezone := fixedZone 32400000000

/-- Fixed-offset model of `ZoneInfo("UTC")`. -/
def utcZone : Timezone := fixedZone 0

/-- A small model of the IANA lookup performed by the `ZoneInfo`
constructor: resolves two names, rejects everything else. -/
def tzdb : String → Option Timezone := fun name =>
  if name = "Asia/Tokyo" then some tokyoZone
  else if name = "UTC" then some utcZone
  else none

/-- The February 2026 window in the Tokyo zone (what
`parse_month_window "2026-02" "Asia/Tokyo"` produces). -/
def febWindow : MonthWindow :=
  { start := ⟨2026, 2, 1, 0, 0, 0, 0, some tokyoZone⟩,
    «end» := ⟨2026, 3, 1, 0, 0, 0, 0, some tokyoZone⟩ }

/-- A timed raw event with the given title and RFC3339 start/end. -/
def timedEvent (title st en : String) : RawEvent :=
  { summary := some title, status := some "confirmed",
    start := some { date := none, dateTime := some st },
    «end» := some { date := none, dateTime := some en } }

/-- The conditions under which, per the specification, a raw event
contributes to the aggregation: not cancelled, exact title match, not
all-day, both timed values present and parseable, and strictly positive
clipped overlap with the window. -/
def contributesCond (event : RawEvent) (target_title : String)
    (window : MonthWindow) : Prop :=
  event.status ≠ some "cancelled" ∧
  event.summary = some target_title ∧
  is_all_day_event event = false ∧
  ∃ sRaw eRaw ds de sec,
    event.startRec.dateTime = some sRaw ∧
    event.endRec.dateTime = some eRaw ∧
    parse_event_datetime sRaw = some ds ∧
    parse_event_datetime eRaw = some de ∧
    overlap_seconds ds de window = .ok sec ∧ 0 < sec

/-- The specification's clipped-overlap formula, on UTC instants:
`max(event_start, window.start)` against `min(event_end, window.end)`,
zero when the clipped interval is empty. -/
def clippedOverlapSpec (es ee : DateTime) (w : MonthWindow) : Int :=
  let lo := max (instantMicros es) (instantMicros w.start)
  let hi := min (instantMicros ee) (instantMicros w.«end»)
  if hi ≤ lo then 0 else hi - lo

/-- Every timed value of the event that parses at all parses to an aware
datetime (true of all RFC3339 provider data, which always carries an
offset). -/
def parsedAware (event : RawEvent) : Prop :=
  (∀ s d, event.startRec.dateTime = some s → parse_event_datetime s = some d →
    d.tz.isSome) ∧
  (∀ s d, event.endRec.dateTime = some s → parse_event_datetime s = some d →
    d.tz.isSome)

/-- The month string fails the repository's format contract: it does not
split on `"-"` into exactly two `int()`-parseable parts with the month part
in `[1, 12]`. -/
def badMonthFormat (month : String) : Prop :=
  ¬ ∃ p0 p1 year mv,
      (pySplitChar '-' month.toList).map String.mk = [p0, p1] ∧
      pyInt p0 = some year ∧ pyInt p1 = some mv ∧ 1 ≤ mv ∧ mv ≤ 12

/-- The parsed year (with its month) stays inside `datetime`'s supported
range for both window bounds: `1 ≤ year ≤ 9999`, and not December 9999
(whose window end would be year 10000). -/
def monthYearInRange (month : String) : Prop :=
  ∃ p0 p1 year mv,
      (pySplitChar '-' month.toList).map String.mk = [p0, p1] ∧
      pyInt p0 = some year ∧ pyInt p1 = some mv ∧ 1 ≤ mv ∧ mv ≤ 12 ∧
      1 ≤ year ∧ year ≤ 9999 ∧ ¬(year = 9999 ∧ mv = 12)

/-- A one-hour timed event on 2026-02-05 (Tokyo) titled "Project A". -/
def c1Event : RawEvent :=
  timedEvent "Project A" "2026-02-05T10:00:00+09:00" "2026-02-05T11:00:00+09:00"

/-- Timestamp 2026-02-05T10:00:00 at fixed offset +09:00 (as parsed from RFC3339). -/
def c1Start : DateTime := ⟨2026, 2, 5, 10, 0, 0, 0, some (fixedZone 32400000000)⟩

/-- Timestamp 2026-02-05T11:00:00 at fixed offset +09:00. -/
def c1End : DateTime := ⟨2026, 2, 5, 11, 0, 0, 0, some (fixedZone 32400000000)⟩

/-- The detail `aggregate_event_seconds` produces for `c1Event`. -/
def c1Detail : MatchedEventDetail :=
  { title := "Project A", start := c1Start, «end» := c1End,
    counted_seconds := 3600000000 }

/-- A one-hour event on 2026-02-20, listed before the earlier one. -/
def c3LateEvent : RawEvent :=
  timedEvent "Project A" "2026-02-20T10:00:00+09:00" "2026-02-20T11:00:00+09:00"

/-- A one-hour event on 2026-02-05 (the earlier of the two). -/
def c3EarlyEvent : RawEvent := c1Event

/-- Expected detail for the early event. -/
def c3DetailEarly : MatchedEventDetail := c1Detail

/-- Expected detail for the late event. -/
def c3DetailLate : MatchedEventDetail :=
  { title := "Project A",
    start := ⟨2026, 2, 20, 10, 0, 0, 0, some (fixedZone 32400000000)⟩,
    «end» := ⟨2026, 2, 20, 11, 0, 0, 0, some (fixedZone 32400000000)⟩,
    counted_seconds := 3600000000 }

/-- Timestamp 2026-01-31T23:00 Tokyo: one hour before the February window opens. -/
def c2Start : DateTime := ⟨2026, 1, 31, 23, 0, 0, 0, some tokyoZone⟩

/-- Timestamp 2026-02-01T02:00 Tokyo: two hours into the February window. -/
def c2End : DateTime := ⟨2026, 2, 1, 2, 0, 0, 0, some tokyoZone⟩

/-- An inverted window: February's start, but an end in early January (what
the resolver produces when "now" precedes the month). -/
def invWindow : MonthWindow :=
  { start := febWindow.start, «end» := ⟨2026, 1, 5, 12, 0, 0, 0, some tokyoZone⟩ }

/-- An event whose timed values parse but carry no UTC offset: Python
produces naive datetimes, which the aggregation then compares against the
aware window bounds. -/
def c4NaiveEvent : RawEvent :=
  timedEvent "Project A" "2026-02-01T10:00:00" "2026-02-01T11:00:00"

/-- An event whose timed start does not parse at all. -/
def c4UnparseableEvent : RawEvent :=
  timedEvent "Project A" "not-a-datetime" "2026-02-01T11:00:00+09:00"

/-- A current instant inside February 2026, in the Tokyo zone. -/
def c7Now : DateTime := ⟨2026, 2, 10, 12, 0, 0, 0, some tokyoZone⟩

/-- The detail of the specification's formatting example: 20:00-22:30 Tokyo,
9000 counted seconds. -/
def exampleDetail : MatchedEventDetail :=
  { title := "Project A",
    start := ⟨2026, 2, 4, 20, 0, 0, 0, some tokyoZone⟩,
    «end» := ⟨2026, 2, 4, 22, 30, 0, 0, some tokyoZone⟩,
    counted_seconds := 9000000000 }

/-- A raw event with no "start" field at all. -/
def c9Event : RawEvent :=
  { summary := some "Project A", status := none, start := none,
    «end» := some { date := none, dateTime := some "2026-02-05T11:00:00+09:00" } }

lemma pyCompareDT_aware {a b : DateTime} {za zb : Timezone}
    (ha : a.tz = some za) (hb : b.tz = some zb) :
    pyCompareDT a b =
      .ok (if instantMicros a < instantMicros b then .lt
           else if instantMicros a = instantMicros b then .eq else .gt) := by
  simp [pyCompareDT, ha, hb]

lemma pyMaxDT_aware {a b : DateTime} {za zb : Timezone}
    (ha : a.tz = some za) (hb : b.tz = some zb) :
    pyMaxDT a b = .ok (if instantMicros a < instantMicros b then b else a) := by
  rw [pyMaxDT, pyCompareDT_aware hb ha]
  by_cases hlt : instantMicros b < instantMicros a
  · rw [if_pos hlt, if_neg (by omega : ¬ instantMicros a < instantMicros b)]
    rfl
  · by_cases heq : instantMicros b = instantMicros a
    · rw [if_neg hlt, if_pos heq,
        if_neg (by omega : ¬ instantMicros a < instantMicros b)]
      rfl
    · rw [if_neg hlt, if_neg heq,
        if_pos (by omega : instantMicros a < instantMicros b)]
      rfl

lemma pyMinDT_aware {a b : DateTime} {za zb : Timezone}
    (ha : a.tz = some za) (hb : b.tz = some zb) :
    pyMinDT a b = .ok (if instantMicros b < instantMicros a then b else a) := by
  rw [pyMinDT, pyCompareDT_aware hb ha]
  by_cases hlt : instantMicros b < instantMicros a
  · simp only [if_pos hlt]
    rfl
  · simp only [if_neg hlt]
    by_cases heq : instantMicros b = instantMicros a
    · simp only [if_pos heq]
      rfl
    · simp only [if_neg heq]
      rfl

lemma exceptBindOk {ε α β : Type} (a : α) (f : α → Except ε β) :
    (Except.ok a >>= f) = f a := rfl

lemma exceptBindErr {ε α β : Type} (e : ε) (f : α → Except ε β) :
    ((Except.error e : Except ε α) >>= f) = .error e := rfl

lemma dtSubMicros_aware {a b : DateTime} {za zb : Timezone}
    (ha : a.tz = some za) (hb : b.tz = some zb) :
    dtSubMicros a b = .ok (instantMicros a - instantMicros b) := by
  simp [dtSubMicros, ha, hb]

lemma pyLeDT_aware {a b : DateTime} {za zb : Timezone}
    (ha : a.tz = some za) (hb : b.tz = some zb) :
    pyLeDT a b = .ok (decide (instantMicros a ≤ instantMicros b)) := by
  rw [pyLeDT, pyCompareDT_aware ha hb]
  by_cases hlt : instantMicros a < instantMicros b
  · simp only [if_pos hlt]
    rw [exceptBindOk, decide_eq_true hlt.le]
    rfl
  · by_cases heq : instantMicros a = instantMicros b
    · simp only [if_neg hlt, if_pos heq]
      rw [exceptBindOk, decide_eq_true heq.le]
      rfl
    · simp only [if_neg hlt, if_neg heq]
      rw [exceptBindOk,
        decide_eq_false (by omega : ¬ instantMicros a ≤ instantMicros b)]
      rfl

lemma overlap_seconds_aware {es ee : DateTime} {w : MonthWindow}
    {z1 z2 z3 z4 : Timezone}
    (h1 : es.tz = some z1) (h2 : ee.tz = some z2)
    (h3 : w.start.tz = some z3) (h4 : w.«end».tz = some z4) :
    overlap_seconds es ee w = .ok (clippedOverlapSpec es ee w) := by
  rw [overlap_seconds, pyMaxDT_aware h1 h3, pyMinDT_aware h2 h4]
  rw [clippedOverlapSpec]
  by_cases hA : instantMicros es < instantMicros w.start
  · rw [max_eq_right hA.le]
    by_cases hB : instantMicros w.«end» < instantMicros ee
    · simp only [if_pos hA, if_pos hB, exceptBindOk]
      rw [pyLeDT_aware h4 h3, exceptBindOk, min_eq_right hB.le,
        dtSubMicros_aware h4 h3]
      by_cases hle : instantMicros w.«end» ≤ instantMicros w.start
      · simp only [decide_eq_true_eq, if_pos hle]
        rfl
      · simp only [decide_eq_true_eq, if_neg hle, exceptBindOk]
        rfl
    · simp only [if_pos hA, if_neg hB, exceptBindOk]
      rw [pyLeDT_aware h2 h3, exceptBindOk,
        min_eq_left (by omega : instantMicros ee ≤ instantMicros w.«end»),
        dtSubMicros_aware h2 h3]
      by_cases hle : instantMicros ee ≤ instantMicros w.start
      · simp only [decide_eq_true_eq, if_pos hle]
        rfl
      · simp only [decide_eq_true_eq, if_neg hle, exceptBindOk]
        rfl
  · rw [max_eq_left (by omega : instantMicros w.start ≤ instantMicros es)]
    by_cases hB : instantMicros w.«end» < instantMicros ee
    · simp only [if_neg hA, if_pos hB, exceptBindOk]
      rw [pyLeDT_aware h4 h1, exceptBindOk, min_eq_right hB.le,
        dtSubMicros_aware h4 h1]
      by_cases hle : instantMicros w.«end» ≤ instantMicros es
      · simp only [decide_eq_true_eq, if_pos hle]
        rfl
      · simp only [decide_eq_true_eq, if_neg hle, exceptBindOk]
        rfl
    · simp only [if_neg hA, if_neg hB, exceptBindOk]
      rw [pyLeDT_aware h2 h1, exceptBindOk,
        min_eq_left (by omega : instantMicros ee ≤ instantMicros w.«end»),
        dtSubMicros_aware h2 h1]
      by_cases hle : instantMicros ee ≤ instantMicros es
      · simp only [decide_eq_true_eq, if_pos hle]
        rfl
      · simp only [decide_eq_true_eq, if_neg hle, exceptBindOk]
        rfl

lemma stepEvent_some_of_cond {e : RawEvent} {t : String} {w : MonthWindow}
    (h : contributesCond e t w) : ∃ d, stepEvent t w e = .ok (some d) := by
  obtain ⟨h1, h2, h3, sRaw, eRaw, ds, de, sec, hs, he, hp, hq, hov, hpos⟩ := h
  have hns : ¬(sRaw = "" ∨ eRaw = "") := by
    rintro (h | h) <;> subst h
    · rw [(rfl : parse_event_datetime "" = none)] at hp
      cases hp
    · rw [(rfl : parse_event_datetime "" = none)] at hq
      cases hq
  refine ⟨{ title := t, start := ds, «end» := de, counted_seconds := sec }, ?_⟩
  rw [stepEvent, if_neg h1, if_neg (by simp [h2]), if_neg (by simp [h3]),
    hs, he]
  simp only [if_neg hns, hp, hq, hov, exceptBindOk, if_pos hpos]
  rfl

lemma stepEvent_cond_of_some {e : RawEvent} {t : String} {w : MonthWindow}
    {d : MatchedEventDetail} (hd : stepEvent t w e = .ok (some d)) :
    contributesCond e t w ∧ 0 < d.counted_seconds := by
  rw [stepEvent] at hd
  by_cases h1 : e.status = some "cancelled"
  · rw [if_pos h1] at hd
    cases hd
  rw [if_neg h1] at hd
  by_cases h2 : e.summary ≠ some t
  · rw [if_pos h2] at hd
    cases hd
  rw [if_neg h2] at hd
  by_cases h3 : is_all_day_event e = true
  · rw [if_pos h3] at hd
    cases hd
  rw [if_neg h3] at hd
  cases hs : e.startRec.dateTime with
  | none => rw [hs] at hd; cases he : e.endRec.dateTime <;> rw [he] at hd <;> cases hd
  | some sRaw =>
    rw [hs] at hd
    cases he : e.endRec.dateTime with
    | none => rw [he] at hd; cases hd
    | some eRaw =>
      rw [he] at hd
      dsimp only at hd
      by_cases h4 : sRaw = "" ∨ eRaw = ""
      · rw [if_pos h4] at hd
        cases hd
      rw [if_neg h4] at hd
      cases hp : parse_event_datetime sRaw with
      | none => rw [hp] at hd; cases hd
      | some ds =>
        rw [hp] at hd
        cases hq : parse_event_datetime eRaw with
        | none => rw [hq] at hd; cases hd
        | some de =>
          rw [hq] at hd
          dsimp only at hd
          cases hov : overlap_seconds ds de w with
          | error err => rw [hov, exceptBindErr] at hd; cases hd
          | ok sec =>
            rw [hov, exceptBindOk] at hd
            by_cases h5 : sec > 0
            · rw [if_pos h5] at hd
              have hdval : d =
                  MatchedEventDetail.mk t ds de sec := by
                cases hd
                rfl
              refine ⟨⟨h1, not_not.mp h2, eq_false_of_ne_true h3,
                sRaw, eRaw, ds, de, sec, hs, he, hp, hq, hov, h5⟩, ?_⟩
              rw [hdval]
              exact h5
            · rw [if_neg h5] at hd
              cases hd

lemma stepEvent_pos_of_some {e : RawEvent} {t : String} {w : MonthWindow}
    {d : MatchedEventDetail} (hd : stepEvent t w e = .ok (some d)) :
    0 < d.counted_seconds :=
  (stepEvent_cond_of_some hd).2

lemma aggLoop_ok_spec {t : String} {w : MonthWindow} :
    ∀ (evs : List RawEvent) (tot0 : Int) (cnt0 : Nat)
      (ds0 : List MatchedEventDetail) {tot : Int} {cnt : Nat}
      {ds : List MatchedEventDetail},
      aggLoop t w evs tot0 cnt0 ds0 = .ok (tot, cnt, ds) →
      ∃ new, ds = ds0 ++ new ∧ cnt = cnt0 + new.length ∧
        tot = tot0 + (new.map (fun d => d.counted_seconds)).sum ∧
        ∀ d ∈ new, 0 < d.counted_seconds := by
  intro evs
  induction evs with
  | nil =>
    intro tot0 cnt0 ds0 tot cnt ds h
    rw [aggLoop] at h
    cases h
    exact ⟨[], by simp⟩
  | cons e rest ih =>
    intro tot0 cnt0 ds0 tot cnt ds h
    rw [aggLoop] at h
    cases hst : stepEvent t w e with
    | error err => rw [hst, exceptBindErr] at h; cases h
    | ok od =>
      rw [hst, exceptBindOk] at h
      cases od with
      | none =>
        dsimp only at h
        exact ih tot0 cnt0 ds0 h
      | some d =>
        dsimp only at h
        obtain ⟨new, hds, hcnt, htot, hpos⟩ :=
          ih (tot0 + d.counted_seconds) (cnt0 + 1) (ds0 ++ [d]) h
        refine ⟨d :: new, ?_, ?_, ?_, ?_⟩
        · rw [hds, List.append_assoc]
          rfl
        · rw [hcnt, List.length_cons]
          omega
        · rw [htot, List.map_cons, List.sum_cons]
          omega
        · intro x hx
          rcases List.mem_cons.mp hx with hx | hx
          · subst hx
            exact stepEvent_pos_of_some hst
          · exact hpos x hx


/-- C1: a raw event contributes to the result of `aggregate_event_seconds`
(its loop body yields a detail for it — equivalently, a single-event input
list aggregates to a count of one) if and only if its status
is not `"cancelled"`, its summary exactly equals the target title, neither
bound carries a date-only (all-day) marker, both `start.dateTime` and
`end.dateTime` are present and parseable, and the clipped overlap with the
window is strictly positive. -/
theorem aggregate_contribution_iff (e : RawEvent) (t : String)
    (w : MonthWindow) (tot : Int) (cnt : Nat)
    (ds : List MatchedEventDetail)
    (h : aggregate_event_seconds [e] t w = .ok (tot, cnt, ds)) :
    ((∃ d, stepEvent t w e = .ok (some d)) ↔ contributesCond e t w) ∧
    (cnt = 1 ↔ contributesCond e t w) := by
  refine ⟨⟨fun hd => (stepEvent_cond_of_some hd.choose_spec).1,
    stepEvent_some_of_cond⟩, ?_⟩
  rw [aggregate_event_seconds, aggLoop] at h
  cases hst : stepEvent t w e with
  | error err => rw [hst, exceptBindErr, exceptBindErr] at h; cases h
  | ok od =>
    rw [hst, exceptBindOk] at h
    cases od with
    | none =>
      dsimp only at h
      rw [aggLoop] at h
      cases h
      constructor
      · intro h1
        cases h1
      · intro hc
        obtain ⟨d, hd⟩ := stepEvent_some_of_cond hc
        rw [hst] at hd
        cases hd
    | some d =>
      dsimp only at h
      rw [aggLoop] at h
      cases h
      constructor
      · intro _
        exact (stepEvent_cond_of_some hst).1
      · intro _
        rfl

/-- C3: whenever `aggregate_event_seconds` returns, `matched_count` equals
the number of details, every detail carries a strictly positive
`counted_seconds`, `total_seconds` equals the sum of `counted_seconds` over
the details, and the detail list is sorted ascending by the `(start, end)`
key, whatever the input order. -/
theorem aggregate_result_invariants (events : List RawEvent) (t : String)
    (w : MonthWindow) (tot : Int) (cnt : Nat)
    (ds : List MatchedEventDetail)
    (h : aggregate_event_seconds events t w = .ok (tot, cnt, ds)) :
    cnt = ds.length ∧ (∀ d ∈ ds, 0 < d.counted_seconds) ∧
    tot = (ds.map (fun d => d.counted_seconds)).sum ∧
    ds.Pairwise pyKeyLe := by
  rw [aggregate_event_seconds] at h
  cases hl : aggLoop t w events 0 0 [] with
  | error err => rw [hl, exceptBindErr] at h; cases h
  | ok trip =>
    obtain ⟨tot', cnt', details⟩ := trip
    rw [hl, exceptBindOk] at h
    cases h
    obtain ⟨new, hds, hcnt, htot, hpos⟩ := aggLoop_ok_spec events 0 0 [] hl
    rw [List.nil_append] at hds
    subst hds
    have hperm := List.perm_insertionSort pyKeyLe details
    refine ⟨?_, ?_, ?_, ?_⟩
    · rw [hcnt, hperm.length_eq]
      omega
    · intro d hd
      exact hpos d (hperm.mem_iff.mp hd)
    · rw [htot, (hperm.map (fun d => d.counted_seconds)).sum_eq]
      omega
    · exact List.sorted_insertionSort pyKeyLe details

lemma clippedOverlapSpec_eq_zero {es ee : DateTime} {w : MonthWindow}
    (h : min (instantMicros ee) (instantMicros w.«end») ≤
      max (instantMicros es) (instantMicros w.start)) :
    clippedOverlapSpec es ee w = 0 := by
  rw [clippedOverlapSpec]
  exact if_pos h

lemma stepEvent_none_of_inverted {t : String} {w : MonthWindow}
    {z3 z4 : Timezone} {e : RawEvent}
    (hw3 : w.start.tz = some z3) (hw4 : w.«end».tz = some z4)
    (ha : parsedAware e)
    (hinv : instantMicros w.«end» < instantMicros w.start) :
    stepEvent t w e = .ok none := by
  rw [stepEvent]
  by_cases h1 : e.status = some "cancelled"
  · rw [if_pos h1]
  rw [if_neg h1]
  by_cases h2 : e.summary ≠ some t
  · rw [if_pos h2]
  rw [if_neg h2]
  by_cases h3 : is_all_day_event e = true
  · rw [if_pos h3]
  rw [if_neg h3]
  cases hs : e.startRec.dateTime with
  | none =>
    cases he : e.endRec.dateTime <;> rfl
  | some sRaw =>
    cases he : e.endRec.dateTime with
    | none => rfl
    | some eRaw =>
      dsimp only
      by_cases h4 : sRaw = "" ∨ eRaw = ""
      · rw [if_pos h4]
      rw [if_neg h4]
      cases hp : parse_event_datetime sRaw with
      | none => rfl
      | some dsP =>
        cases hq : parse_event_datetime eRaw with
        | none => rfl
        | some deP =>
          dsimp only
          obtain ⟨z5, hz5⟩ :=
            Option.isSome_iff_exists.mp (ha.1 sRaw dsP hs hp)
          obtain ⟨z6, hz6⟩ :=
            Option.isSome_iff_exists.mp (ha.2 eRaw deP he hq)
          rw [overlap_seconds_aware hz5 hz6 hw3 hw4, exceptBindOk,
            clippedOverlapSpec_eq_zero
              (by omega :
                min (instantMicros deP) (instantMicros w.«end») ≤
                  max (instantMicros dsP) (instantMicros w.start))]
          rw [if_neg (by omega : ¬ (0 : Int) > 0)]
          rfl

lemma aggLoop_inverted {t : String} {w : MonthWindow} {z3 z4 : Timezone}
    (hw3 : w.start.tz = some z3) (hw4 : w.«end».tz = some z4)
    (hinv : instantMicros w.«end» < instantMicros w.start) :
    ∀ (evs : List RawEvent), (∀ e ∈ evs, parsedAware e) →
      aggLoop t w evs 0 0 [] = .ok (0, 0, []) := by
  intro evs
  induction evs with
  | nil => intro _; rfl
  | cons e rest ih =>
    intro hall
    rw [aggLoop,
      stepEvent_none_of_inverted hw3 hw4 (hall e (List.mem_cons_self e rest)) hinv,
      exceptBindOk]
    exact ih (fun x hx => hall x (List.mem_cons_of_mem e hx))

/-- C2: for zone-aware instants, `overlap_seconds` computes exactly the
clipped overlap `min(event_end, window.end) - max(event_start, window.start)`
(in microseconds; the Python float of seconds is this over 10^6): zero when
the clipped interval is empty (boundary-touching events, events fully
outside the window, and any inverted window with `end < start` give exactly
`0`), the full duration for an event fully inside the window, and — for an
inverted window — aggregation over aware events yields zero matches rather
than an error. -/
theorem overlap_seconds_clipping (es ee : DateTime) (w : MonthWindow)
    (z1 z2 z3 z4 : Timezone)
    (h1 : es.tz = some z1) (h2 : ee.tz = some z2)
    (h3 : w.start.tz = some z3) (h4 : w.«end».tz = some z4) :
    overlap_seconds es ee w = .ok (clippedOverlapSpec es ee w) ∧
    (instantMicros w.«end» ≤ instantMicros es →
      clippedOverlapSpec es ee w = 0) ∧
    (instantMicros ee ≤ instantMicros w.start →
      clippedOverlapSpec es ee w = 0) ∧
    (instantMicros w.«end» < instantMicros w.start →
      clippedOverlapSpec es ee w = 0) ∧
    (instantMicros w.start ≤ instantMicros es →
      instantMicros ee ≤ instantMicros w.«end» →
      instantMicros es < instantMicros ee →
      clippedOverlapSpec es ee w = instantMicros ee - instantMicros es) ∧
    (∀ (events : List RawEvent) (t : String),
      (∀ e ∈ events, parsedAware e) →
      instantMicros w.«end» < instantMicros w.start →
      aggregate_event_seconds events t w = .ok (0, 0, [])) := by
  refine ⟨overlap_seconds_aware h1 h2 h3 h4, ?_, ?_, ?_, ?_, ?_⟩
  · intro h
    exact clippedOverlapSpec_eq_zero (by omega)
  · intro h
    exact clippedOverlapSpec_eq_zero (by omega)
  · intro h
    exact clippedOverlapSpec_eq_zero (by omega)
  · intro ha hb hc
    rw [clippedOverlapSpec, if_neg (by omega), max_eq_left ha,
      min_eq_left hb]
  · intro events t hall hinv
    rw [aggregate_event_seconds, aggLoop_inverted h3 h4 hinv events hall,
      exceptBindOk]
    rfl

lemma one_le_daysInMonth (y m : Int) : 1 ≤ daysInMonth y m := by
  rw [daysInMonth]
  split
  · split <;> norm_num
  · split <;> norm_num

lemma astimezone_tz (d : DateTime) (z : Timezone) :
    (d.astimezone z).tz = some z := rfl

lemma tzMsgNeFormatMsg (t : String) :
    ("Invalid timezone: " ++ t) ≠ "--month must be in YYYY-MM format." := by
  intro h
  have h2 : ('I' : Char) = '-' :=
    congrArg (fun s => s.data.head?.getD ' ') h
  exact absurd h2 (by decide)

lemma parse_month_window_ok {db : String → Option Timezone}
    {month tzname p0 p1 : String} {year mv : Int} {z : Timezone}
    (hsplit : (pySplitChar '-' month.toList).map String.mk = [p0, p1])
    (h0 : pyInt p0 = some year) (h1 : pyInt p1 = some mv)
    (hmv1 : 1 ≤ mv) (hmv2 : mv ≤ 12)
    (hy1 : 1 ≤ year) (hy2 : year ≤ 9999)
    (hne : ¬(year = 9999 ∧ mv = 12))
    (hdb : db tzname = some z) :
    parse_month_window db month tzname =
      .ok { start := ⟨year, mv, 1, 0, 0, 0, 0, some z⟩,
            «end» := if mv = 12 then ⟨year + 1, 1, 1, 0, 0, 0, 0, some z⟩
                     else ⟨year, mv + 1, 1, 0, 0, 0, 0, some z⟩ } := by
  rw [parse_month_window, hsplit]
  dsimp only
  rw [h0, h1]
  dsimp only
  rw [if_neg (by omega : ¬ (mv < 1 ∨ mv > 12)), hdb]
  simp only [datetimeNew]
  by_cases hm : mv = 12
  · rw [if_pos hm]
    split
    · rename_i hc
      rw [exceptBindOk]
      split
      · rename_i hc2
        rw [exceptBindOk]
        rfl
      · rename_i hc2
        exact absurd ⟨by omega, by omega, by omega, by omega, by omega,
          one_le_daysInMonth (year + 1) 1, by omega, by omega, by omega,
          by omega, by omega, by omega, by omega, by omega⟩ hc2
    · rename_i hc
      exact absurd ⟨hy1, hy2, hmv1, hmv2, by omega,
        one_le_daysInMonth year mv, by omega, by omega, by omega, by omega,
        by omega, by omega, by omega, by omega⟩ hc
  · rw [if_neg hm]
    split
    · rename_i hc
      rw [exceptBindOk]
      split
      · rename_i hc2
        rw [exceptBindOk]
        rfl
      · rename_i hc2
        exact absurd ⟨hy1, hy2, by omega, by omega, by omega,
          one_le_daysInMonth year (mv + 1), by omega, by omega, by omega,
          by omega, by omega, by omega, by omega, by omega⟩ hc2
    · rename_i hc
      exact absurd ⟨hy1, hy2, hmv1, hmv2, by omega,
        one_le_daysInMonth year mv, by omega, by omega, by omega, by omega,
        by omega, by omega, by omega, by omega⟩ hc

lemma parse_month_window_badYear {db : String → Option Timezone}
    {month tzname p0 p1 : String} {year mv : Int} {z : Timezone}
    (hsplit : (pySplitChar '-' month.toList).map String.mk = [p0, p1])
    (h0 : pyInt p0 = some year) (h1 : pyInt p1 = some mv)
    (hmv1 : 1 ≤ mv) (hmv2 : mv ≤ 12)
    (hbad : ¬(1 ≤ year ∧ year ≤ 9999 ∧ ¬(year = 9999 ∧ mv = 12)))
    (hdb : db tzname = some z) :
    parse_month_window db month tzname = .error .valueError := by
  rw [parse_month_window, hsplit]
  dsimp only
  rw [h0, h1]
  dsimp only
  rw [if_neg (by omega : ¬ (mv < 1 ∨ mv > 12)), hdb]
  simp only [datetimeNew]
  by_cases hy : 1 ≤ year ∧ year ≤ 9999
  · have hym : year = 9999 ∧ mv = 12 := by tauto
    split
    · rename_i hc
      rw [exceptBindOk, if_pos hym.2]
      split
      · rename_i hc2
        rcases hc2 with ⟨-, hb2, -⟩
        omega
      · rename_i hc2
        rw [exceptBindErr]
    · rename_i hc
      exact absurd ⟨hy.1, hy.2, hmv1, hmv2, by omega,
        one_le_daysInMonth year mv, by omega, by omega, by omega, by omega,
        by omega, by omega, by omega, by omega⟩ hc
  · split
    · rename_i hc
      rcases hc with ⟨ha2, hb2, -⟩
      omega
    · rename_i hc
      rw [exceptBindErr]

/-- C6: for a month string that splits into a valid `(year, month)` pair in
`datetime`'s representable range, and a resolvable timezone,
`parse_month_window` returns the window from civil midnight on day 1 of
that month to civil midnight on day 1 of the following month (year rolled
forward when the month is December), both carrying the requested zone. -/
theorem parse_month_window_civil_midnights
    (db : String → Option Timezone) (month tzname p0 p1 : String)
    (year mv : Int) (z : Timezone)
    (hsplit : (pySplitChar '-' month.toList).map String.mk = [p0, p1])
    (h0 : pyInt p0 = some year) (h1 : pyInt p1 = some mv)
    (hmv1 : 1 ≤ mv) (hmv2 : mv ≤ 12)
    (hy1 : 1 ≤ year) (hy2 : year ≤ 9999)
    (hne : ¬(year = 9999 ∧ mv = 12))
    (hdb : db tzname = some z) :
    parse_month_window db month tzname =
      .ok { start := ⟨year, mv, 1, 0, 0, 0, 0, some z⟩,
            «end» := if mv = 12 then ⟨year + 1, 1, 1, 0, 0, 0, 0, some z⟩
                     else ⟨year, mv + 1, 1, 0, 0, 0, 0, some z⟩ } :=
  parse_month_window_ok hsplit h0 h1 hmv1 hmv2 hy1 hy2 hne hdb

/-- Witness for C6 at a concrete December input: the window end rolls over
to January 1 of the next year. -/
theorem parse_month_window_civil_midnights_witness :
    parse_month_window tzdb "2026-12" "Asia/Tokyo" =
      .ok { start := ⟨2026, 12, 1, 0, 0, 0, 0, some tokyoZone⟩,
            «end» := ⟨2027, 1, 1, 0, 0, 0, 0, some tokyoZone⟩ } :=
  parse_month_window_civil_midnights tzdb "2026-12" "Asia/Tokyo"
    "2026" "12" 2026 12 tokyoZone rfl (by decide) (by decide)
    (by decide) (by decide) (by decide) (by decide) (by omega) rfl

lemma errWorklog_ne_ok {msg : String} {w : MonthWindow} :
    (Except.error (PyErr.worklog msg) : Except PyErr MonthWindow) ≠ .ok w := by
  intro h
  cases h

lemma errValue_ne_ok {w : MonthWindow} :
    (Except.error PyErr.valueError : Except PyErr MonthWindow) ≠ .ok w := by
  intro h
  cases h

lemma errWorklog_ne_errValue {msg : String} :
    (Except.error (PyErr.worklog msg) : Except PyErr MonthWindow) ≠
      .error PyErr.valueError := by
  intro h
  injection h with h2
  cases h2

lemma errWorklog_inj {msg msg2 : String}
    (h : (Except.error (PyErr.worklog msg) : Except PyErr MonthWindow) =
      .error (PyErr.worklog msg2)) : msg = msg2 := by
  injection h with h2
  injection h2

/-- C5 (amended): `parse_month_window` fails with the month-format
`WorklogError` exactly when the month string does not split on `"-"` into
exactly two `int()`-parseable parts with month in `[1, 12]`; otherwise it
fails with the invalid-timezone `WorklogError` exactly when the zone lookup
fails; otherwise it succeeds exactly when the parsed year keeps both window
bounds inside `datetime`'s supported year range `[1, 9999]` (so not
December 9999 either), and raises an uncaught `ValueError` exactly
otherwise. -/
theorem parse_month_window_cases (db : String → Option Timezone)
    (month timezone_name : String) :
    (parse_month_window db month timezone_name =
        .error (.worklog "--month must be in YYYY-MM format.") ↔
      badMonthFormat month) ∧
    (parse_month_window db month timezone_name =
        .error (.worklog ("Invalid timezone: " ++ timezone_name)) ↔
      ¬ badMonthFormat month ∧ db timezone_name = none) ∧
    ((∃ w, parse_month_window db month timezone_name = .ok w) ↔
      ¬ badMonthFormat month ∧ (db timezone_name).isSome = true ∧
        monthYearInRange month) ∧
    (parse_month_window db month timezone_name = .error .valueError ↔
      ¬ badMonthFormat month ∧ (db timezone_name).isSome = true ∧
        ¬ monthYearInRange month) := by
  have hmsg : ∀ h : ("--month must be in YYYY-MM format." : String) =
      "Invalid timezone: " ++ timezone_name, False :=
    fun h => tzMsgNeFormatMsg timezone_name h.symm
  rcases hsp : (pySplitChar '-' month.toList).map String.mk with
    _ | ⟨p0, _ | ⟨p1, _ | ⟨p2, rest⟩⟩⟩
  case nil =>
    have hpm : parse_month_window db month timezone_name =
        .error (.worklog "--month must be in YYYY-MM format.") := by
      rw [parse_month_window, hsp]
    have hbad : badMonthFormat month := by
      rintro ⟨p0', p1', y', m', hs', -, -, -, -⟩
      rw [hsp] at hs'
      cases hs'
    refine ⟨⟨fun _ => hbad, fun _ => hpm⟩, ?_, ?_, ?_⟩
    · constructor
      · intro h
        exact absurd (errWorklog_inj (hpm.symm.trans h)) (fun h2 => hmsg h2)
      · rintro ⟨hnb, -⟩
        exact absurd hbad hnb
    · constructor
      · rintro ⟨w, hw⟩
        exact absurd (hpm.symm.trans hw) errWorklog_ne_ok
      · rintro ⟨hnb, -⟩
        exact absurd hbad hnb
    · constructor
      · intro h
        exact absurd (hpm.symm.trans h) errWorklog_ne_errValue
      · rintro ⟨hnb, -⟩
        exact absurd hbad hnb
  case cons.nil =>
    have hpm : parse_month_window db month timezone_name =
        .error (.worklog "--month must be in YYYY-MM format.") := by
      rw [parse_month_window, hsp]
    have hbad : badMonthFormat month := by
      rintro ⟨p0', p1', y', m', hs', -, -, -, -⟩
      rw [hsp] at hs'
      cases hs'
    refine ⟨⟨fun _ => hbad, fun _ => hpm⟩, ?_, ?_, ?_⟩
    · constructor
      · intro h
        exact absurd (errWorklog_inj (hpm.symm.trans h)) (fun h2 => hmsg h2)
      · rintro ⟨hnb, -⟩
        exact absurd hbad hnb
    · constructor
      · rintro ⟨w, hw⟩
        exact absurd (hpm.symm.trans hw) errWorklog_ne_ok
      · rintro ⟨hnb, -⟩
        exact absurd hbad hnb
    · constructor
      · intro h
        exact absurd (hpm.symm.trans h) errWorklog_ne_errValue
      · rintro ⟨hnb, -⟩
        exact absurd hbad hnb
  case cons.cons.cons =>
    have hpm : parse_month_window db month timezone_name =
        .error (.worklog "--month must be in YYYY-MM format.") := by
      rw [parse_month_window, hsp]
    have hbad : badMonthFormat month := by
      rintro ⟨p0', p1', y', m', hs', -, -, -, -⟩
      rw [hsp] at hs'
      cases hs'
    refine ⟨⟨fun _ => hbad, fun _ => hpm⟩, ?_, ?_, ?_⟩
    · constructor
      · intro h
        exact absurd (errWorklog_inj (hpm.symm.trans h)) (fun h2 => hmsg h2)
      · rintro ⟨hnb, -⟩
        exact absurd hbad hnb
    · constructor
      · rintro ⟨w, hw⟩
        exact absurd (hpm.symm.trans hw) errWorklog_ne_ok
      · rintro ⟨hnb, -⟩
        exact absurd hbad hnb
    · constructor
      · intro h
        exact absurd (hpm.symm.trans h) errWorklog_ne_errValue
      · rintro ⟨hnb, -⟩
        exact absurd hbad hnb
  case cons.cons.nil =>
    have huniq : ∀ {p0' p1' : String},
        (pySplitChar '-' month.toList).map String.mk = [p0', p1'] →
        p0' = p0 ∧ p1' = p1 := by
      intro p0' p1' hs'
      have h2 := hsp.symm.trans hs'
      simp only [List.cons.injEq, and_true] at h2
      exact ⟨h2.1.symm, h2.2.symm⟩
    cases hI0 : pyInt p0 with
    | none =>
      have hpm : parse_month_window db month timezone_name =
          .error (.worklog "--month must be in YYYY-MM format.") := by
        rw [parse_month_window, hsp]
        dsimp only
        rw [hI0]
      have hbad : badMonthFormat month := by
        rintro ⟨p0', p1', y', m', hs', h0', -, -, -⟩
        obtain ⟨rfl, rfl⟩ := huniq hs'
        rw [hI0] at h0'
        cases h0'
      refine ⟨⟨fun _ => hbad, fun _ => hpm⟩, ?_, ?_, ?_⟩
      · constructor
        · intro h
          exact absurd (errWorklog_inj (hpm.symm.trans h)) (fun h2 => hmsg h2)
        · rintro ⟨hnb, -⟩
          exact absurd hbad hnb
      · constructor
        · rintro ⟨w, hw⟩
          exact absurd (hpm.symm.trans hw) errWorklog_ne_ok
        · rintro ⟨hnb, -⟩
          exact absurd hbad hnb
      · constructor
        · intro h
          exact absurd (hpm.symm.trans h) errWorklog_ne_errValue
        · rintro ⟨hnb, -⟩
          exact absurd hbad hnb
    | some year =>
      cases hI1 : pyInt p1 with
      | none =>
        have hpm : parse_month_window db month timezone_name =
            .error (.worklog "--month must be in YYYY-MM format.") := by
          rw [parse_month_window, hsp]
          dsimp only
          rw [hI0, hI1]
        have hbad : badMonthFormat month := by
          rintro ⟨p0', p1', y', m', hs', -, h1', -, -⟩
          obtain ⟨rfl, rfl⟩ := huniq hs'
          rw [hI1] at h1'
          cases h1'
        refine ⟨⟨fun _ => hbad, fun _ => hpm⟩, ?_, ?_, ?_⟩
        · constructor
          · intro h
            exact absurd (errWorklog_inj (hpm.symm.trans h))
              (fun h2 => hmsg h2)
          · rintro ⟨hnb, -⟩
            exact absurd hbad hnb
        · constructor
          · rintro ⟨w, hw⟩
            exact absurd (hpm.symm.trans hw) errWorklog_ne_ok
          · rintro ⟨hnb, -⟩
            exact absurd hbad hnb
        · constructor
          · intro h
            exact absurd (hpm.symm.trans h) errWorklog_ne_errValue
          · rintro ⟨hnb, -⟩
            exact absurd hbad hnb
      | some mv =>
        by_cases hr : mv < 1 ∨ mv > 12
        · have hpm : parse_month_window db month timezone_name =
              .error (.worklog "--month must be in YYYY-MM format.") := by
            rw [parse_month_window, hsp]
            dsimp only
            rw [hI0, hI1]
            dsimp only
            rw [if_pos hr]
          have hbad : badMonthFormat month := by
            rintro ⟨p0', p1', y', m', hs', h0', h1', hm1', hm2'⟩
            obtain ⟨rfl, rfl⟩ := huniq hs'
            rw [hI0] at h0'
            rw [hI1] at h1'
            cases h0'
            cases h1'
            omega
          refine ⟨⟨fun _ => hbad, fun _ => hpm⟩, ?_, ?_, ?_⟩
          · constructor
            · intro h
              exact absurd (errWorklog_inj (hpm.symm.trans h))
                (fun h2 => hmsg h2)
            · rintro ⟨hnb, -⟩
              exact absurd hbad hnb
          · constructor
            · rintro ⟨w, hw⟩
              exact absurd (hpm.symm.trans hw) errWorklog_ne_ok
            · rintro ⟨hnb, -⟩
              exact absurd hbad hnb
          · constructor
            · intro h
              exact absurd (hpm.symm.trans h) errWorklog_ne_errValue
            · rintro ⟨hnb, -⟩
              exact absurd hbad hnb
        · have hnb : ¬ badMonthFormat month := fun hbad =>
            hbad ⟨p0, p1, year, mv, hsp, hI0, hI1, by omega, by omega⟩
          cases hdb : db timezone_name with
          | none =>
            have hpm : parse_month_window db month timezone_name =
                .error (.worklog ("Invalid timezone: " ++ timezone_name)) := by
              rw [parse_month_window, hsp]
              dsimp only
              rw [hI0, hI1]
              dsimp only
              rw [if_neg hr, hdb]
            refine ⟨?_, ⟨fun _ => ⟨hnb, rfl⟩, fun _ => hpm⟩, ?_, ?_⟩
            · constructor
              · intro h
                exact absurd (errWorklog_inj (h.symm.trans hpm))
                  (fun h2 => hmsg h2)
              · intro hb
                exact absurd hb hnb
            · constructor
              · rintro ⟨w, hw⟩
                exact absurd (hpm.symm.trans hw) errWorklog_ne_ok
              · rintro ⟨-, hs2, -⟩
                simp at hs2
            · constructor
              · intro h
                exact absurd (hpm.symm.trans h) errWorklog_ne_errValue
              · rintro ⟨-, hs2, -⟩
                simp at hs2
          | some z =>
            by_cases hyr : 1 ≤ year ∧ year ≤ 9999 ∧ ¬(year = 9999 ∧ mv = 12)
            · have hpm := parse_month_window_ok hsp hI0 hI1 (by omega)
                (by omega) hyr.1 hyr.2.1 hyr.2.2 hdb
              refine ⟨?_, ?_, ?_, ?_⟩
              · constructor
                · intro h
                  exact absurd (h.symm.trans hpm) errWorklog_ne_ok
                · intro hb
                  exact absurd hb hnb
              · constructor
                · intro h
                  exact absurd (h.symm.trans hpm) errWorklog_ne_ok
                · rintro ⟨-, hdn⟩
                  cases hdn
              · constructor
                · intro _
                  exact ⟨hnb, rfl,
                    p0, p1, year, mv, hsp, hI0, hI1, by omega, by omega,
                    hyr.1, hyr.2.1, hyr.2.2⟩
                · intro _
                  exact ⟨_, hpm⟩
              · constructor
                · intro h
                  exact absurd (h.symm.trans hpm) errValue_ne_ok
                · rintro ⟨-, -, hnr⟩
                  exact absurd ⟨p0, p1, year, mv, hsp, hI0, hI1, by omega,
                    by omega, hyr.1, hyr.2.1, hyr.2.2⟩ hnr
            · have hpm := parse_month_window_badYear hsp hI0 hI1 (by omega)
                (by omega) hyr hdb
              have hnr : ¬ monthYearInRange month := by
                rintro ⟨p0', p1', y', m', hs', h0', h1', -, -, hy1', hy2',
                  hne'⟩
                obtain ⟨rfl, rfl⟩ := huniq hs'
                rw [hI0] at h0'
                rw [hI1] at h1'
                cases h0'
                cases h1'
                exact hyr ⟨hy1', hy2', hne'⟩
              refine ⟨?_, ?_, ?_, ?_⟩
              · constructor
                · intro h
                  exact absurd (h.symm.trans hpm) errWorklog_ne_errValue
                · intro hb
                  exact absurd hb hnb
              · constructor
                · intro h
                  exact absurd (h.symm.trans hpm) errWorklog_ne_errValue
                · rintro ⟨-, hdn⟩
                  cases hdn
              · constructor
                · rintro ⟨w, hw⟩
                  exact absurd (hw.symm.trans hpm).symm errValue_ne_ok
                · rintro ⟨-, -, hr2⟩
                  exact absurd hr2 hnr
              · constructor
                · intro _
                  exact ⟨hnb, rfl, hnr⟩
                · intro _
                  exact hpm

/-- Witness for C1: the one-hour exactly-titled event of `c1Event` is
counted, and all of the claim's conditions hold of it. -/
theorem aggregate_contribution_iff_witness :
    contributesCond c1Event "Project A" febWindow :=
  (aggregate_contribution_iff c1Event "Project A" febWindow
    3600000000 1 [c1Detail] rfl).2.mp rfl

/-- Witness for C3: two events supplied in reverse chronological order
aggregate to a count matching the detail list, positive contributions, the
total as the sum, and details sorted back into ascending order. -/
theorem aggregate_result_invariants_witness :
    (2 : Nat) = ([c3DetailEarly, c3DetailLate] : List MatchedEventDetail).length ∧
    (∀ d ∈ ([c3DetailEarly, c3DetailLate] : List MatchedEventDetail),
      0 < d.counted_seconds) ∧
    (7200000000 : Int) =
      (([c3DetailEarly, c3DetailLate] : List MatchedEventDetail).map
        (fun d => d.counted_seconds)).sum ∧
    ([c3DetailEarly, c3DetailLate] : List MatchedEventDetail).Pairwise pyKeyLe :=
  aggregate_result_invariants [c3LateEvent, c3EarlyEvent] "Project A"
    febWindow 7200000000 2 [c3DetailEarly, c3DetailLate] rfl

/-- Witness for C2: a boundary-straddling event contributes exactly its
in-window portion (two of its three hours), and aggregation over an
inverted window returns zero matches without an error. -/
theorem overlap_seconds_clipping_witness :
    overlap_seconds c2Start c2End febWindow =
      .ok (clippedOverlapSpec c2Start c2End febWindow) ∧
    clippedOverlapSpec c2Start c2End febWindow = 7200000000 ∧
    aggregate_event_seconds [c1Event] "Project A" invWindow = .ok (0, 0, []) := by
  have h := overlap_seconds_clipping c2Start c2End febWindow
    tokyoZone tokyoZone tokyoZone tokyoZone rfl rfl rfl rfl
  have hinv := overlap_seconds_clipping c2Start c2End invWindow
    tokyoZone tokyoZone tokyoZone tokyoZone rfl rfl rfl rfl
  refine ⟨h.1, by decide, ?_⟩
  refine hinv.2.2.2.2.2 [c1Event] "Project A" ?_ (by decide)
  intro e he
  rw [List.mem_singleton] at he
  subst he
  constructor
  · intro sRaw d hs hp
    have hs2 : sRaw = "2026-02-05T10:00:00+09:00" := by
      injection hs with h2
      exact h2.symm
    subst hs2
    rw [(rfl : parse_event_datetime "2026-02-05T10:00:00+09:00" =
      some c1Start)] at hp
    injection hp with h2
    subst h2
    rfl
  · intro sRaw d hs hp
    have hs2 : sRaw = "2026-02-05T11:00:00+09:00" := by
      injection hs with h2
      exact h2.symm
    subst hs2
    rw [(rfl : parse_event_datetime "2026-02-05T11:00:00+09:00" =
      some c1End)] at hp
    injection hp with h2
    subst h2
    rfl

/-- C4 (code bug): the aggregation does catch parse failures — an event
with an unparseable timed value is skipped silently, and a literal `"Z"`
suffix parses like `"+00:00"` — but a timed value that parses *without* an
offset yields a naive datetime, and comparing it with the aware window in
`overlap_seconds` raises an uncaught `TypeError` that aborts the whole
aggregation, contradicting the specification's "never by aborting the
whole aggregation". -/
theorem aggregate_raises_on_naive_datetime :
    aggregate_event_seconds [c4NaiveEvent] "Project A" febWindow =
      .error .typeError ∧
    parse_event_datetime "2026-02-01T10:00:00Z" =
      parse_event_datetime "2026-02-01T10:00:00+00:00" ∧
    aggregate_event_seconds [c4UnparseableEvent] "Project A" febWindow =
      .ok (0, 0, []) :=
  ⟨rfl, rfl, rfl⟩

/-- C5 counterexample: `"0000-01"` splits on `"-"` into two integer parts
with the month part in range, and the timezone resolves, so the claim as
stated predicts success; instead `parse_month_window` surfaces an uncaught
`ValueError` from the `datetime` constructor (year 0 is out of range) —
neither a success nor either claimed `WorklogError`. -/
theorem parse_month_window_year_zero :
    (pySplitChar '-' "0000-01".toList).map String.mk = ["0000", "01"] ∧
    pyInt "0000" = some 0 ∧ pyInt "01" = some 1 ∧
    tzdb "UTC" = some utcZone ∧
    parse_month_window tzdb "0000-01" "UTC" = .error .valueError :=
  ⟨rfl, rfl, rfl, rfl, rfl⟩

/-- C7: `resolve_aggregation_window` returns the input window unchanged
when `include_through_month_end` is true; otherwise it keeps `start` and
sets `end` to the minimum of the window end and the current instant ("now"
being the override when supplied, else the clock reading) converted into
the window's timezone: the converted now when its instant is before the
month end, and the original month end when now is at or past it. -/
theorem resolve_aggregation_window_spec (clockNow : DateTime)
    (mw : MonthWindow) (now : Option DateTime) (z : Timezone)
    (hz : mw.start.tz = some z) (hze : mw.«end».tz.isSome = true)
    (_hcur : (now.getD clockNow).tz.isSome = true) :
    resolve_aggregation_window clockNow mw true now = .ok mw ∧
    resolve_aggregation_window clockNow mw false now =
      .ok { start := mw.start,
            «end» :=
              if instantMicros ((now.getD clockNow).astimezone z) <
                  instantMicros mw.«end» then
                (now.getD clockNow).astimezone z
              else mw.«end» } := by
  constructor
  · rfl
  · obtain ⟨z4, hz4⟩ := Option.isSome_iff_exists.mp hze
    rw [resolve_aggregation_window, if_neg (by decide : ¬ (false = true)),
      hz]
    dsimp only
    rw [pyMinDT_aware hz4 (astimezone_tz (now.getD clockNow) z),
      exceptBindOk]
    rfl

/-- Witness for C7 at a concrete input: with the flag set the February
window is returned unchanged; with the flag clear and a now of Feb 10
12:00 Tokyo the end is capped to that converted now. -/
theorem resolve_aggregation_window_spec_witness :
    resolve_aggregation_window c7Now febWindow true (some c7Now) =
      .ok febWindow ∧
    resolve_aggregation_window c7Now febWindow false (some c7Now) =
      .ok { start := febWindow.start,
            «end» := c7Now.astimezone tokyoZone } := by
  have h := resolve_aggregation_window_spec c7Now febWindow (some c7Now)
    tokyoZone rfl rfl rfl
  refine ⟨h.1, ?_⟩
  rw [h.2, if_pos (by decide)]
  rfl

/-- C8: `format_event_detail_line` is a pure function producing exactly
`"{index}. {start} -> {end} ({hours}h)"`, with both timestamps rendered in
the display timezone as `YYYY-MM-DD HH:MM` and the hours value rendered
with exactly two decimals; on the specification's example detail
(20:00 to 22:30, 9000 counted seconds) it yields exactly
`"1. 2026-02-04 20:00 -> 2026-02-04 22:30 (2.50h)"`. -/
theorem format_event_detail_line_spec :
    (∀ (index : Nat) (detail : MatchedEventDetail) (tz : Timezone),
      format_event_detail_line index detail tz false =
        toString index ++ ". " ++
          strftimeLine false (detail.start.astimezone tz) ++ " -> " ++
          strftimeLine false (detail.«end».astimezone tz) ++
          " (" ++ formatFixed2 detail.counted_seconds 3600000000 ++ "h)") ∧
    (∀ d : DateTime, strftimeLine false d =
      (pad4 d.year ++ "-" ++ pad2 d.month ++ "-" ++ pad2 d.day) ++ " " ++
        (pad2 d.hour ++ ":" ++ pad2 d.minute)) ∧
    format_event_detail_line 1 exampleDetail tokyoZone false =
      "1. 2026-02-04 20:00 -> 2026-02-04 22:30 (2.50h)" ∧
    formatFixed2 9000000000 3600000000 = "2.50" :=
  ⟨fun _ _ _ => rfl, fun _ => rfl, rfl, rfl⟩

/-- C10: with `show_weekday` the weekday abbreviation is inserted, in
parentheses, between the date and the time (`YYYY-MM-DD (Www) HH:MM`), and
without the flag the very same date and time parts appear with no weekday
at all; on the example detail the flagged line reads
`"1. 2026-02-04 (Wed) 20:00 -> 2026-02-04 (Wed) 22:30 (2.50h)"`. -/
theorem format_weekday_placement :
    (∀ d : DateTime, ∃ datePart timePart wd,
      strftimeLine false d = datePart ++ " " ++ timePart ∧
      strftimeLine true d = datePart ++ " (" ++ wd ++ ") " ++ timePart) ∧
    format_event_detail_line 1 exampleDetail tokyoZone true =
      "1. 2026-02-04 (Wed) 20:00 -> 2026-02-04 (Wed) 22:30 (2.50h)" ∧
    format_event_detail_line 1 exampleDetail tokyoZone false =
      "1. 2026-02-04 20:00 -> 2026-02-04 22:30 (2.50h)" :=
  ⟨fun d => ⟨pad4 d.year ++ "-" ++ pad2 d.month ++ "-" ++ pad2 d.day,
    pad2 d.hour ++ ":" ++ pad2 d.minute,
    weekdayAbbrev (daysFromCivil d.year d.month d.day), rfl, rfl⟩,
    rfl, rfl⟩

/-- C9: an event lacking the `start` field or the `end` field entirely is
skipped without an error: the loop body yields no detail for it, and
aggregating with the event prepended gives the same result as without it. -/
theorem aggregate_skips_missing_start_end (e : RawEvent) (t : String)
    (w : MonthWindow) (h : e.start = none ∨ e.«end» = none) :
    stepEvent t w e = .ok none ∧
    ∀ evs, aggregate_event_seconds (e :: evs) t w =
      aggregate_event_seconds evs t w := by
  have hstep : stepEvent t w e = .ok none := by
    rw [stepEvent]
    by_cases h1 : e.status = some "cancelled"
    · rw [if_pos h1]
    rw [if_neg h1]
    by_cases h2 : e.summary ≠ some t
    · rw [if_pos h2]
    rw [if_neg h2]
    by_cases h3 : is_all_day_event e = true
    · rw [if_pos h3]
    rw [if_neg h3]
    rcases h with h | h
    · have hnone : e.startRec.dateTime = none := by
        rw [RawEvent.startRec, h]
        rfl
      rw [hnone]
    · have hnone : e.endRec.dateTime = none := by
        rw [RawEvent.endRec, h]
        rfl
      rw [hnone]
      cases e.startRec.dateTime <;> rfl
  refine ⟨hstep, fun evs => ?_⟩
  rw [aggregate_event_seconds, aggregate_event_seconds, aggLoop, hstep,
    exceptBindOk]

/-- Witness for C9: an event with no `start` member is skipped, and its
presence does not change the aggregation. -/
theorem aggregate_skips_missing_start_end_witness :
    stepEvent "Project A" febWindow c9Event = .ok none ∧
    aggregate_event_seconds [c9Event] "Project A" febWindow =
      aggregate_event_seconds [] "Project A" febWindow := by
  have h := aggregate_skips_missing_start_end c9Event "Project A" febWindow
    (Or.inl rfl)
  exact ⟨h.1, h.2 []⟩
